import Mathlib

/-
Verification of the confetti-manager effect orchestrator
(src/src/models/base.ts).  The repository holds two variants of the
`Confetti` class: an options-object variant (its methods take a single
optional `ConfettiOptions` argument) and a colors variant (its methods take
a `colors` array plus options).  Both are embedded below; the options
variant is the primary one, the colors variant lives in the `CV` namespace.

JavaScript idioms are modelled explicitly:
  * an object field that may be absent is an `Option`;
  * object-literal spread `{...lo, ...hi}` is `jsSpread` per field (a field
    present in `hi` wins, otherwise the value from `lo` is kept);
  * `x || d` on a numeric field is `jsOr` (both `undefined` and `0` fall
    back to `d`, since `0` is falsy in JavaScript);
  * `setTimeout` / `setInterval` handles are naturals allocated from a
    counter starting at 1 (browsers return positive integers, and the
    source tests handles for truthiness, so a live handle is never falsy);
  * fractional quantities (counts, scalars, random draws, delays) are
    rationals; millisecond timestamps compared by the interval schedulers
    are integers (`Date.now()` values; every comparison in the source is
    between such timestamps).
-/

/-- JS object-spread semantics for one optional field: in `{...lo, ...hi}`
a field present in `hi` wins, otherwise the field of `lo` is kept. -/
def jsSpread {α : Type} (lo hi : Option α) : Option α :=
  match hi with
  | some v => some v
  | none => lo

/-- JS `x || d` on an optional numeric field: `undefined` and `0` (both
falsy) fall back to `d`. -/
def jsOr (x : Option ℚ) (d : ℚ) : ℚ :=
  match x with
  | some v => if v = 0 then d else v
  | none => d

theorem jsSpread_assoc {α : Type} (a b c : Option α) :
    jsSpread (jsSpread a b) c = jsSpread a (jsSpread b c) := by
  cases c <;> cases b <;> rfl

/-- A `canvas-confetti` shape value: either a plain string (a built-in
shape name or arbitrary text/emoji) or the descriptor produced by
`confetti.shapeFromText` with the scalar it was built with. -/
inductive JShape where
  | str (s : String)
  | fromText (text : String) (scalar : ℚ)
  deriving DecidableEq, Repr

/-- `origin: { x?, y? }` of a burst configuration.  Spread is shallow, so
an `origin` object always replaces a previous one wholesale. -/
structure Origin where
  x : Option ℚ := none
  y : Option ℚ := none
  deriving DecidableEq, Repr

/-- `ConfettiOptions` from src/src/models/base.ts (the union of the fields
the orchestrator reads or writes); every field optional. -/
structure ConfettiOptions where
  colors : Option (List String) := none
  particleCount : Option ℚ := none
  spread : Option ℚ := none
  startVelocity : Option ℚ := none
  decay : Option ℚ := none
  scalar : Option ℚ := none
  angle : Option ℚ := none
  origin : Option Origin := none
  ticks : Option ℚ := none
  gravity : Option ℚ := none
  drift : Option ℚ := none
  shapes : Option (List JShape) := none
  zIndex : Option ℚ := none
  delay : Option ℚ := none
  duration : Option ℚ := none
  disableForReducedMotion : Option Bool := none
  deriving DecidableEq, Repr

/-- `{...lo, ...hi}` on two option objects, field by field. -/
def mergeOpts (lo hi : ConfettiOptions) : ConfettiOptions where
  colors := jsSpread lo.colors hi.colors
  particleCount := jsSpread lo.particleCount hi.particleCount
  spread := jsSpread lo.spread hi.spread
  startVelocity := jsSpread lo.startVelocity hi.startVelocity
  decay := jsSpread lo.decay hi.decay
  scalar := jsSpread lo.scalar hi.scalar
  angle := jsSpread lo.angle hi.angle
  origin := jsSpread lo.origin hi.origin
  ticks := jsSpread lo.ticks hi.ticks
  gravity := jsSpread lo.gravity hi.gravity
  drift := jsSpread lo.drift hi.drift
  shapes := jsSpread lo.shapes hi.shapes
  zIndex := jsSpread lo.zIndex hi.zIndex
  delay := jsSpread lo.delay hi.delay
  duration := jsSpread lo.duration hi.duration
  disableForReducedMotion := jsSpread lo.disableForReducedMotion hi.disableForReducedMotion

/-- The constructor's built-in defaults (`this.defaults` before any
caller-supplied config is spread on top). -/
def builtinDefaults : ConfettiOptions where
  colors := some ["#a864fd", "#29cdff", "#78ff44", "#ff718d", "#fdff6a", "#9400D3"]
  particleCount := some 200
  spread := some 60
  startVelocity := some 30
  decay := some (9/10)
  scalar := some 1
  angle := some 90
  origin := some { x := some (1/2), y := some (1/2) }

/-- `launchConfetti` (options variant): the configuration handed to the
rendering primitive is `{...this.defaults, ...options}`. -/
def fireOne (defaults options : ConfettiOptions) : ConfettiOptions :=
  mergeOpts defaults options

/-- Effect base of `cannon` (options variant): the literal starts with
`particleCount: 100` and then spreads the caller's options on top. -/
def cannonBase : ConfettiOptions where
  particleCount := some 100

/-- The configuration `cannon(o)` (options variant) eventually hands to
the rendering primitive: `{...defaults, ...{particleCount: 100, ...o}}`. -/
def cannonDispatchOpt (defaults o : ConfettiOptions) : ConfettiOptions :=
  fireOne defaults (mergeOpts cannonBase o)

/-- Layered merge as worded by the spec: every field explicitly present in
the override `o` takes its value from `o`; a field absent from `o` but
present in the effect-specific defaults `e` takes the effect value; all
remaining fields come from the orchestrator defaults `d`. -/
def specMerge3 (d e o : ConfettiOptions) : ConfettiOptions where
  colors := jsSpread (jsSpread d.colors e.colors) o.colors
  particleCount := jsSpread (jsSpread d.particleCount e.particleCount) o.particleCount
  spread := jsSpread (jsSpread d.spread e.spread) o.spread
  startVelocity := jsSpread (jsSpread d.startVelocity e.startVelocity) o.startVelocity
  decay := jsSpread (jsSpread d.decay e.decay) o.decay
  scalar := jsSpread (jsSpread d.scalar e.scalar) o.scalar
  angle := jsSpread (jsSpread d.angle e.angle) o.angle
  origin := jsSpread (jsSpread d.origin e.origin) o.origin
  ticks := jsSpread (jsSpread d.ticks e.ticks) o.ticks
  gravity := jsSpread (jsSpread d.gravity e.gravity) o.gravity
  drift := jsSpread (jsSpread d.drift e.drift) o.drift
  shapes := jsSpread (jsSpread d.shapes e.shapes) o.shapes
  zIndex := jsSpread (jsSpread d.zIndex e.zIndex) o.zIndex
  delay := jsSpread (jsSpread d.delay e.delay) o.delay
  duration := jsSpread (jsSpread d.duration e.duration) o.duration
  disableForReducedMotion :=
    jsSpread (jsSpread d.disableForReducedMotion e.disableForReducedMotion) o.disableForReducedMotion

namespace CV

/-- Colors variant `launchConfetti` color check:
`!colors || colors.length <= 0 ? this.defaults.colors : colors`. -/
def checkedColors (defaults : ConfettiOptions) (colors : Option (List String)) :
    Option (List String) :=
  match colors with
  | none => defaults.colors
  | some l => if l.isEmpty then defaults.colors else some l

/-- Colors variant `launchConfetti`: the dispatched configuration is
`{...this.defaults, colors: checkedColors, ...options}`. -/
def launchConfetti (defaults : ConfettiOptions) (colors : Option (List String))
    (o : ConfettiOptions) : ConfettiOptions :=
  mergeOpts { defaults with colors := checkedColors defaults colors } o

/-- Colors variant `cannon`: it builds `{...options, particleCount: 100}`
(the effect value is spread AFTER the caller's options). -/
def cannonDispatch (defaults : ConfettiOptions) (colors : Option (List String))
    (o : ConfettiOptions) : ConfettiOptions :=
  launchConfetti defaults colors (mergeOpts o { particleCount := some 100 })

end CV

/-- `Math.floor(Math.random() * 300)` from `randomDirection`, with the
random draw `r` made explicit. -/
def randomDirectionCount (r : ℚ) : ℤ :=
  Int.floor (r * 300)

/-- Argument object built by `randomDirection` (options variant):
`{particleCount: floor(r1*300), spread: floor(r2*360), angle: floor(r3*360), ...options}`. -/
def randomDirectionArg (r1 r2 r3 : ℚ) (o : ConfettiOptions) : ConfettiOptions :=
  mergeOpts
    { particleCount := some ((randomDirectionCount r1 : ℤ) : ℚ)
      spread := some ((Int.floor (r2 * 360) : ℤ) : ℚ)
      angle := some ((Int.floor (r3 * 360) : ℤ) : ℚ) }
    o

/-- One `fire(particleRatio, opts)` argument of `realistic` (options
variant): `{...{origin: {y: 0.7}}, particleCount: Math.floor(200 * ratio), ...opts, ...options}`. -/
def realisticFireArg (o : ConfettiOptions) (ratio : ℚ) (opts : ConfettiOptions) :
    ConfettiOptions :=
  mergeOpts
    (mergeOpts
      (mergeOpts
        { origin := some { y := some (7/10) } }
        { particleCount := some ((Int.floor ((200 : ℚ) * ratio) : ℤ) : ℚ) })
      opts)
    o

/-- The five burst arguments of `realistic`, in call order. -/
def realisticBurstArgs (o : ConfettiOptions) : List ConfettiOptions :=
  [ realisticFireArg o (25/100) { spread := some 26, startVelocity := some 55 }
  , realisticFireArg o (20/100) { spread := some 60 }
  , realisticFireArg o (35/100)
      { spread := some 100, decay := some (91/100), scalar := some (8/10) }
  , realisticFireArg o (10/100)
      { spread := some 120, startVelocity := some 25, decay := some (92/100), scalar := some (12/10) }
  , realisticFireArg o (10/100) { spread := some 120, startVelocity := some 45 } ]

/-- Effect base of `stars` (options variant). -/
def starsBase : ConfettiOptions where
  particleCount := some 40
  shapes := some [JShape.str "star"]
  colors := some ["FFE400", "FFBD00", "E89400", "FFCA6C", "FDFFB8"]
  scalar := some (12/10)

/-- Effect-local defaults of `fireworks`:
`{startVelocity: 30, spread: 360, ticks: 60, zIndex: 0}`. -/
def fwBase : ConfettiOptions where
  startVelocity := some 30
  spread := some 360
  ticks := some 60
  zIndex := some 0

/-- `50 * (timeLeft / duration)`: the per-tick particle count of
`fireworks`, exactly as computed in the source (no flooring). -/
def fireworksTickCount (duration timeLeft : ℚ) : ℚ :=
  50 * (timeLeft / duration)

/-- One of the two argument objects built by a `fireworks` interval tick:
`{...fwBase, particleCount, origin: {x, y}, ...options}` with
`particleCount = 50 * (timeLeft / (options.duration || 15000))`. -/
def fireworksTickArg (o : ConfettiOptions) (timeLeft ox oy : ℚ) : ConfettiOptions :=
  mergeOpts
    (mergeOpts fwBase
      { particleCount := some (fireworksTickCount (jsOr o.duration 15000) timeLeft)
        origin := some { x := some ox, y := some oy } })
    o

/-- The configuration a `fireworks` tick hands to the rendering primitive
(after `launchConfetti` merges the orchestrator defaults underneath). -/
def fireworksDispatch (defaults o : ConfettiOptions) (timeLeft ox oy : ℚ) :
    ConfettiOptions :=
  fireOne defaults (fireworksTickArg o timeLeft ox oy)

/-- The valid built-in shape names checked by `fall`. -/
def validShapes : List String := ["circle", "square", "star"]

/-- Shape processing of `fall`: a string not among the valid names is
turned into a text shape via `confetti.shapeFromText` (no warning); a
valid name passes through; any non-string value outside the valid set
logs a warning (`Bool` result) and falls back to `'circle'`. -/
def processShape (sc : Option ℚ) (sh : JShape) : JShape × Bool :=
  match sh with
  | JShape.str s =>
      if s ∈ validShapes then (JShape.str s, false)
      else (JShape.fromText s (jsOr sc 1), false)
  | JShape.fromText _ _ => (JShape.str "circle", true)

/-- `processedShapes` of `fall`: `(options?.shapes || validShapes).map(...)`. -/
def fallProcessedShapes (o : ConfettiOptions) : List JShape :=
  ((o.shapes).getD (validShapes.map JShape.str)).map (fun sh => (processShape o.scalar sh).1)

/-- Whether the shape processing of `fall` logged any warning. -/
def fallWarned (o : ConfettiOptions) : Bool :=
  ((o.shapes).getD (validShapes.map JShape.str)).any (fun sh => (processShape o.scalar sh).2)

/-- One burst argument of `fall` (options variant): note the literal
spreads `...options` LAST, after the `shapes: processedShapes` entry. -/
def fallBurstArg (o : ConfettiOptions) (ox dr : ℚ) : ConfettiOptions :=
  mergeOpts
    { particleCount := some (jsOr o.particleCount 50)
      startVelocity := some (jsOr o.startVelocity 20)
      gravity := some (jsOr o.gravity (8/10))
      ticks := some (jsOr o.ticks 1200)
      decay := some (jsOr o.decay (93/100))
      shapes := some (fallProcessedShapes o)
      origin := some { x := some ox, y := some 0 }
      scalar := some (jsOr o.scalar (11/10))
      drift := some dr }
    o

/-- Observable actions the orchestrator requests from its collaborators:
a (possibly delayed) burst dispatch, a fade-tick burst of the smooth
reset (sent straight to the global renderer), a console warning, and the
rendering primitive's global clear (`confetti.reset()`). -/
inductive Event where
  | dispatch (cfg : ConfettiOptions)
  | fadeTick (cfg : ConfettiOptions)
  | warn (msg : String)
  | globalClear
  deriving DecidableEq, Repr

/-- Reset mode argument: the source compares the string against
`'instant'` and `'smooth'` and treats everything else as unknown. -/
inductive ResetMode where
  | instant
  | smooth
  | other (s : String)

/-- Mutable state of one `Confetti` instance, together with the parts of
the browser scheduler it interacts with: the set of still-running interval
handles and the queue of untracked one-shot `setTimeout`s (delay paired
with the options the timer will fire with). -/
structure World where
  defaults : ConfettiOptions
  hasInstance : Bool
  timerId : Option ℕ
  animationFrameId : Option ℕ
  activeIntervals : List ℕ
  nextHandle : ℕ
  pendingOneShots : List (ℚ × ConfettiOptions)

/-- `new Confetti(config)`: merge the built-in defaults with the
caller-supplied config (caller wins field by field); no loops running. -/
def mkWorld (config : ConfettiOptions) : World where
  defaults := mergeOpts builtinDefaults config
  hasInstance := false
  timerId := none
  animationFrameId := none
  activeIntervals := []
  nextHandle := 1
  pendingOneShots := []

/-- `launchConfettiWithDelay(options)`: a one-shot `setTimeout` whose
handle is NOT stored anywhere on the instance; it is only enqueued with
the browser. -/
def launchConfettiWithDelayW (o : ConfettiOptions) (w : World) : World :=
  { w with pendingOneShots := w.pendingOneShots ++ [(jsOr o.delay 0, o)] }

/-- `custom(options)`. -/
def customW (o : ConfettiOptions) (w : World) : World :=
  launchConfettiWithDelayW o w

/-- `cannon(options)` (options variant). -/
def cannonW (o : ConfettiOptions) (w : World) : World :=
  launchConfettiWithDelayW (mergeOpts cannonBase o) w

/-- `randomDirection(options)` (options variant), random draws explicit. -/
def randomDirectionW (r1 r2 r3 : ℚ) (o : ConfettiOptions) (w : World) : World :=
  launchConfettiWithDelayW (randomDirectionArg r1 r2 r3 o) w

/-- `realistic(options)`: five sequential delayed one-shot launches. -/
def realisticW (o : ConfettiOptions) (w : World) : World :=
  (realisticBurstArgs o).foldl (fun acc c => launchConfettiWithDelayW c acc) w

/-- `stars(options)` (options variant). -/
def starsW (o : ConfettiOptions) (w : World) : World :=
  launchConfettiWithDelayW (mergeOpts starsBase o) w

/-- `fall(options)`: ten delayed one-shot launches (horizontal origin and
drift randomized per burst, draws explicit). -/
def fallW (o : ConfettiOptions) (rox rdr : ℕ → ℚ) (w : World) : World :=
  ((List.range 10).map (fun i => fallBurstArg o (rox i) (rdr i))).foldl
    (fun acc c => launchConfettiWithDelayW c acc) w

/-- `customCanvas(canvas)`: binds or unbinds the surface instance. -/
def customCanvasW (bind : Bool) (w : World) : World :=
  { w with hasInstance := bind }

/-- `window.setInterval(...)`: allocates a fresh positive handle and
registers the interval as running. -/
def setIntervalAlloc (w : World) : ℕ × World :=
  (w.nextHandle,
   { w with
      activeIntervals := w.activeIntervals ++ [w.nextHandle]
      nextHandle := w.nextHandle + 1 })

/-- `if (this.timerId) { clearInterval(this.timerId); this.timerId = null; }` —
shared by `stopInfinite`, the `'instant'` reset branch, and the final
smooth-reset tick. -/
def stopTrackedInterval (w : World) : World :=
  match w.timerId with
  | some t =>
      { w with
          activeIntervals := w.activeIntervals.filter (fun x => x != t)
          timerId := none }
  | none => w

/-- `infinite(...)` synchronous part: `this.timerId = window.setInterval(...)`.
The previous value of `timerId` is overwritten WITHOUT being cleared. -/
def infiniteStartW (w : World) : World :=
  let p := setIntervalAlloc w
  { p.2 with timerId := some p.1 }

/-- `fireworks(...)` synchronous part: `const interval = setInterval(...);
this.timerId = interval;` — again no clearing of a previous handle. -/
def fireworksStartW (w : World) : World :=
  let p := setIntervalAlloc w
  { p.2 with timerId := some p.1 }

/-- One tick of the interval started by `infinite(method, interval,
duration)`.  The tick only happens while the browser still runs handle
`h`; the callback compares `Date.now()` with the captured end time
(`duration < k * interval` for the `k`-th tick) and either calls
`stopInfinite` or invokes the chosen method (counted in the second
component). -/
def infTickW (interval duration : ℤ) (h : ℕ) (k : ℕ) (acc : World × ℕ) : World × ℕ :=
  if h ∈ acc.1.activeIntervals then
    if duration < (k : ℤ) * interval then (stopTrackedInterval acc.1, acc.2)
    else (acc.1, acc.2 + 1)
  else acc

/-- Run ticks `k, k+1, ...` of the `infinite` interval, `n` of them. -/
def infRunAux (interval duration : ℤ) (h : ℕ) : ℕ → ℕ → World × ℕ → World × ℕ
  | 0, _, acc => acc
  | n + 1, k, acc => infRunAux interval duration h n (k + 1) (infTickW interval duration h k acc)

/-- Run the first `n` ticks of the `infinite` interval with handle `h`,
starting from world `w`; returns the final world and how many times the
chosen effect method was invoked. -/
def infRunW (interval duration : ℤ) (h n : ℕ) (w : World) : World × ℕ :=
  infRunAux interval duration h n 1 (w, 0)

/-- The burst fired by one smooth-reset fade tick (`currentStep = k`):
the source calls the global `confetti` directly with exactly these
fields (`||` defaults applied, scalar `1 - currentStep/steps`). -/
def smoothTickCfg (o : ConfettiOptions) (steps : ℚ) (k : ℕ) : ConfettiOptions where
  particleCount := some (jsOr o.particleCount 100)
  startVelocity := some 0
  scalar := some (1 - (k : ℚ) / steps)
  disableForReducedMotion := some true
  ticks := some (jsOr o.ticks 200)
  gravity := some (jsOr o.gravity (1/2))
  colors := some ((o.colors).getD ["rgba(255, 255, 255, 0.1)"])
  shapes := some ((o.shapes).getD [JShape.str "circle", JShape.str "square"])

/-- The smooth-reset interval loop: every 50ms tick increments
`currentStep`, fires a fade burst, and stops once `currentStep >= steps`.
Returns the fired events and whether the loop completed within the
simulated ticks (`fuel`). -/
def smoothLoop (o : ConfettiOptions) (steps : ℚ) : ℕ → ℕ → List Event × Bool
  | 0, _ => ([], false)
  | fuel + 1, cur =>
    let c := cur + 1
    let ev := Event.fadeTick (smoothTickCfg o steps c)
    if steps ≤ (c : ℚ) then ([ev, Event.globalClear], true)
    else
      let r := smoothLoop o steps fuel c
      (ev :: r.1, r.2)

/-- `reset(type, options)`.  All branches first cancel any tracked
animation frame.  `'instant'` clears the tracked interval and fires the
global clear; `'smooth'` allocates a fade interval (`steps =
(options.duration || 2000) / 50`), runs the fade loop, and on completion
clears the fade interval, the tracked interval and fires the global
clear; any other mode logs a warning and fires the global clear WITHOUT
touching the tracked interval. -/
def resetW (mode : ResetMode) (o : ConfettiOptions) (fuel : ℕ) (w : World) :
    World × List Event :=
  let w1 : World := { w with animationFrameId := none }
  match mode with
  | ResetMode.instant => (stopTrackedInterval w1, [Event.globalClear])
  | ResetMode.smooth =>
      let steps : ℚ := jsOr o.duration 2000 / 50
      let fadeH : ℕ := w1.nextHandle
      let w2 : World :=
        { w1 with
            activeIntervals := w1.activeIntervals ++ [fadeH]
            nextHandle := fadeH + 1 }
      let r := smoothLoop o steps fuel 0
      let w3 : World :=
        if r.2 then
          stopTrackedInterval
            { w2 with activeIntervals := w2.activeIntervals.filter (fun x => x != fadeH) }
        else w2
      (w3, r.1)
  | ResetMode.other s =>
      (w1,
       [Event.warn ("Unknown reset type: " ++ s ++ ". Defaulting to instant reset."),
        Event.globalClear])

/-- Scalar carried by a fade-tick event, if any. -/
def tickScalar : Event → Option ℚ
  | Event.fadeTick c => c.scalar
  | Event.dispatch _ => none
  | Event.warn _ => none
  | Event.globalClear => none

/-- Fresh orchestrator with no constructor overrides. -/
def freshWorld : World := mkWorld {}

/-- World right after `infinite('cannon', 1000, 5000)` on a fresh
orchestrator: interval handle 1 allocated, tracked, and running. -/
def wInf : World := infiniteStartW freshWorld

/-- World after the `infinite` interval has self-cleared. -/
def stoppedW : World := { wInf with activeIntervals := [], timerId := none }

/-- Options of the C4 scenario: `reset('smooth', {duration: 2000})`. -/
def rOpts2000 : ConfettiOptions := { duration := some 2000 }

/-- Options of the C8 scenario: `fall({shapes: ['heart']})`. -/
def cexFallOpts : ConfettiOptions := { shapes := some [JShape.str "heart"] }

example : wInf.timerId = some 1 := rfl
example : wInf.activeIntervals = [1] := rfl
example : (cannonDispatchOpt builtinDefaults {}).particleCount = some 100 := rfl
example : (CV.cannonDispatch builtinDefaults none { particleCount := some 7 }).particleCount
    = some 100 := rfl
example : processShape none (JShape.str "heart") = (JShape.fromText "heart" 1, false) := rfl
example : (infRunW 1000 5000 1 6 wInf).2 = 5 := rfl
example : infRunW 1000 5000 1 6 wInf = (stoppedW, 5) := rfl

/-! Helper lemmas (shared across claims). -/

theorem stopTracked_pendingOneShots (w : World) :
    (stopTrackedInterval w).pendingOneShots = w.pendingOneShots := by
  cases h : w.timerId <;> simp [stopTrackedInterval, h]

theorem stopTracked_timerId (w : World) :
    (stopTrackedInterval w).timerId = none := by
  cases h : w.timerId <;> simp [stopTrackedInterval, h]

theorem stopTracked_animationFrameId (w : World) :
    (stopTrackedInterval w).animationFrameId = w.animationFrameId := by
  cases h : w.timerId <;> simp [stopTrackedInterval, h]

theorem mem_stopTracked {x : ℕ} {w : World} :
    x ∈ (stopTrackedInterval w).activeIntervals → x ∈ w.activeIntervals := by
  cases h : w.timerId with
  | none => simp [stopTrackedInterval, h]
  | some t =>
      intro hx
      simp only [stopTrackedInterval, h, List.mem_filter] at hx
      exact hx.1

theorem timerId_not_mem_stopTracked {t : ℕ} {w : World} (h : w.timerId = some t) :
    t ∉ (stopTrackedInterval w).activeIntervals := by
  simp [stopTrackedInterval, h, List.mem_filter]

theorem foldl_launch_pendingOneShots (l : List ConfettiOptions) :
    ∀ w : World,
      (l.foldl (fun acc c => launchConfettiWithDelayW c acc) w).pendingOneShots
        = w.pendingOneShots ++ l.map (fun c => (jsOr c.delay 0, c)) := by
  induction l with
  | nil => intro w; simp
  | cons c l ih =>
      intro w
      rw [List.foldl_cons, ih]
      simp [launchConfettiWithDelayW]

theorem foldl_launch_defaults (l : List ConfettiOptions) :
    ∀ w : World,
      (l.foldl (fun acc c => launchConfettiWithDelayW c acc) w).defaults = w.defaults := by
  induction l with
  | nil => intro w; rfl
  | cons c l ih => intro w; rw [List.foldl_cons, ih]; rfl

theorem foldl_launch_hasInstance (l : List ConfettiOptions) :
    ∀ w : World,
      (l.foldl (fun acc c => launchConfettiWithDelayW c acc) w).hasInstance = w.hasInstance := by
  induction l with
  | nil => intro w; rfl
  | cons c l ih => intro w; rw [List.foldl_cons, ih]; rfl

theorem foldl_launch_timerId (l : List ConfettiOptions) :
    ∀ w : World,
      (l.foldl (fun acc c => launchConfettiWithDelayW c acc) w).timerId = w.timerId := by
  induction l with
  | nil => intro w; rfl
  | cons c l ih => intro w; rw [List.foldl_cons, ih]; rfl

theorem foldl_launch_animationFrameId (l : List ConfettiOptions) :
    ∀ w : World,
      (l.foldl (fun acc c => launchConfettiWithDelayW c acc) w).animationFrameId
        = w.animationFrameId := by
  induction l with
  | nil => intro w; rfl
  | cons c l ih => intro w; rw [List.foldl_cons, ih]; rfl

/-- Core instance state the single-burst methods must not touch. -/
def coreSame (wNew wOld : World) : Prop :=
  wNew.defaults = wOld.defaults ∧ wNew.hasInstance = wOld.hasInstance
    ∧ wNew.timerId = wOld.timerId ∧ wNew.animationFrameId = wOld.animationFrameId

/-! Claims. -/

/-- Claim C1 (amended): in the options variant the dispatched configuration
of `cannon(o)` is exactly the spec's layered merge (call override wins,
then effect defaults, then orchestrator defaults) — in particular an
override's `particleCount` wins there; but in the colors variant `cannon`
spreads `particleCount: 100` AFTER the caller's options, so the dispatched
`particleCount` is always 100. -/
theorem C1_merge_layering :
    (∀ defaults o : ConfettiOptions,
        cannonDispatchOpt defaults o = specMerge3 defaults cannonBase o)
  ∧ (∀ defaults o : ConfettiOptions,
        (cannonDispatchOpt defaults o).particleCount = jsSpread (some 100) o.particleCount)
  ∧ (∀ (defaults : ConfettiOptions) (cs : Option (List String)) (o : ConfettiOptions),
        (CV.cannonDispatch defaults cs o).particleCount = some 100) := by
  refine ⟨?_, ?_, ?_⟩
  · intro d o
    simp only [cannonDispatchOpt, fireOne, mergeOpts, specMerge3, jsSpread_assoc]
  · intro d o
    cases h : o.particleCount <;>
      simp [cannonDispatchOpt, fireOne, mergeOpts, cannonBase, jsSpread, h]
  · intro d cs o
    rfl

/-- Claim C1 counterexample: in the colors variant, `cannon` with an
override carrying `particleCount: 7` dispatches `particleCount = 100`,
not 7. -/
theorem C1_cex :
    (CV.cannonDispatch builtinDefaults none { particleCount := some 7 }).particleCount
      = some 100
  ∧ (CV.cannonDispatch builtinDefaults none { particleCount := some 7 }).particleCount
      ≠ some 7 := by
  constructor
  · rfl
  · intro h
    rw [show (CV.cannonDispatch builtinDefaults none
          { particleCount := some 7 }).particleCount = some (100 : ℚ) from rfl] at h
    simp only [Option.some.injEq] at h
    norm_num at h

/-- Claim C2: `realistic()` with no overrides schedules exactly five
delayed bursts, in call order and each with zero extra delay, whose
dispatched particle counts are exactly floor(200*0.25) = 50,
floor(200*0.2) = 40, floor(200*0.35) = 70, floor(200*0.1) = 20,
floor(200*0.1) = 20. -/
theorem C2_realistic_counts (w : World) :
    (realisticW {} w).pendingOneShots
      = w.pendingOneShots ++ (realisticBurstArgs {}).map (fun c => ((0 : ℚ), c))
  ∧ (realisticBurstArgs {}).map (fun c => (fireOne w.defaults c).particleCount)
      = [some 50, some 40, some 70, some 20, some 20] := by
  constructor
  · rw [realisticW, foldl_launch_pendingOneShots]
    rfl
  · show [some ((Int.floor ((200 : ℚ) * (25/100)) : ℤ) : ℚ),
          some ((Int.floor ((200 : ℚ) * (20/100)) : ℤ) : ℚ),
          some ((Int.floor ((200 : ℚ) * (35/100)) : ℤ) : ℚ),
          some ((Int.floor ((200 : ℚ) * (10/100)) : ℤ) : ℚ),
          some ((Int.floor ((200 : ℚ) * (10/100)) : ℤ) : ℚ)]
        = [some 50, some 40, some 70, some 20, some 20]
    norm_num

/-- Claim C3 counterexample: a `fireworks` interval tick with 14875ms left
of the default 15000ms duration dispatches `particleCount = 595/12`,
which differs from its own floor — the count is dispatched unfloored and
is not an integer. -/
theorem C3_cex :
    (fireworksDispatch builtinDefaults {} 14875 (1/5) (3/10)).particleCount
      = some (fireworksTickCount 15000 14875)
  ∧ fireworksTickCount 15000 14875 = 595/12
  ∧ (595 : ℚ)/12 ≠ ((Int.floor ((595 : ℚ)/12) : ℤ) : ℚ) := by
  refine ⟨rfl, ?_, ?_⟩
  · norm_num [fireworksTickCount]
  · norm_num

/-- Claim C3 (amended): `randomDirection` dispatches a floored count that
is a nonnegative integer below 300; a `fireworks` tick's count is
strictly positive whenever time is left of a positive duration, but it is
dispatched raw (`50 * timeLeft/duration`, no flooring), so it may be
fractional. -/
theorem C3_count_bounds :
    (∀ r : ℚ, 0 ≤ r → r < 1 →
        0 ≤ randomDirectionCount r ∧ randomDirectionCount r < 300)
  ∧ (∀ duration timeLeft : ℚ, 0 < duration → 0 < timeLeft →
        0 < fireworksTickCount duration timeLeft)
  ∧ (∀ (defaults o : ConfettiOptions) (timeLeft ox oy : ℚ), o.particleCount = none →
        (fireworksDispatch defaults o timeLeft ox oy).particleCount
          = some (fireworksTickCount (jsOr o.duration 15000) timeLeft)) := by
  refine ⟨?_, ?_, ?_⟩
  · intro r h0 h1
    constructor
    · exact Int.le_floor.mpr (by push_cast; positivity)
    · apply Int.floor_lt.mpr
      push_cast
      nlinarith
  · intro d t hd ht
    exact mul_pos (by norm_num) (div_pos ht hd)
  · intro d o t ox oy h
    simp [fireworksDispatch, fireOne, fireworksTickArg, mergeOpts, jsSpread, h]

/-- Witness for C3_count_bounds at the concrete C3 tick: duration 15000,
timeLeft 14875. -/
theorem C3_count_bounds_witness :
    0 < fireworksTickCount 15000 14875 :=
  C3_count_bounds.2.1 15000 14875 (by norm_num) (by norm_num)

/-- Claim C7 counterexample: starting `fireworks` while the interval of
`infinite` (handle 1) is still running merely overwrites the tracked
handle with the new one (2); handle 1 keeps running untracked. -/
theorem C7_cex :
    1 ∈ (fireworksStartW (infiniteStartW freshWorld)).activeIntervals
  ∧ (fireworksStartW (infiniteStartW freshWorld)).timerId = some 2 := by
  exact ⟨by decide, rfl⟩

/-- Claim C7 (amended): starting `infinite` or `fireworks` does NOT stop a
previous loop — the freshly allocated handle simply overwrites the tracked
one while every previously active interval keeps running (the active set
only grows). -/
theorem C7_loop_replacement (w : World) :
    (infiniteStartW w).activeIntervals = w.activeIntervals ++ [w.nextHandle]
  ∧ (infiniteStartW w).timerId = some w.nextHandle
  ∧ (fireworksStartW w).activeIntervals = w.activeIntervals ++ [w.nextHandle]
  ∧ (fireworksStartW w).timerId = some w.nextHandle :=
  ⟨rfl, rfl, rfl, rfl⟩

/-- Claim C8 counterexample: `fall({shapes: ['heart']})` — an invalid shape
STRING — converts it via `shapeFromText` without any warning (not to
`'circle'`), and because `fall` spreads the caller options last, the
dispatched shape list is even the raw `['heart']`. -/
theorem C8_cex :
    processShape none (JShape.str "heart") = (JShape.fromText "heart" 1, false)
  ∧ fallWarned cexFallOpts = false
  ∧ (fallBurstArg cexFallOpts 0 0).shapes = some [JShape.str "heart"]
  ∧ (fallBurstArg cexFallOpts 0 0).shapes ≠ some [JShape.str "circle"] := by
  refine ⟨rfl, rfl, rfl, ?_⟩
  rw [show (fallBurstArg cexFallOpts 0 0).shapes = some [JShape.str "heart"] from rfl]
  decide

/-- Claim C8 (amended): in `fall`, a shape string outside the built-in set
is converted via the text-to-shape adapter with `options.scalar || 1` and
no warning; only a non-string shape value outside the set logs a warning
and falls back to `'circle'`; and a caller-supplied `shapes` list is
dispatched raw because `...options` is spread after `shapes:
processedShapes`. -/
theorem C8_shape_handling :
    (∀ (sc : Option ℚ) (s : String), s ∉ validShapes →
        processShape sc (JShape.str s) = (JShape.fromText s (jsOr sc 1), false))
  ∧ (∀ (sc : Option ℚ) (t : String) (k : ℚ),
        processShape sc (JShape.fromText t k) = (JShape.str "circle", true))
  ∧ (∀ (o : ConfettiOptions) (l : List JShape) (ox dr : ℚ), o.shapes = some l →
        (fallBurstArg o ox dr).shapes = some l) := by
  refine ⟨?_, ?_, ?_⟩
  · intro sc s hs
    simp [processShape, hs]
  · intro sc t k
    rfl
  · intro o l ox dr h
    simp [fallBurstArg, mergeOpts, jsSpread, h]

/-- Witness for C8_shape_handling: the unrecognized shape string
`"snowflake"` becomes a text shape, silently. -/
theorem C8_shape_handling_witness :
    processShape none (JShape.str "snowflake")
      = (JShape.fromText "snowflake" 1, false) :=
  C8_shape_handling.1 none "snowflake" (by decide)

/-- Claim C9: `reset` — in every mode — leaves the queue of pending
one-shot delayed bursts untouched (they still fire afterwards), and a
delayed launch itself registers nothing with the orchestrator: it only
appends to the browser's untracked one-shot queue, leaving the tracked
interval handle, the active-interval set and the frame handle unchanged. -/
theorem C9_untracked_oneshots :
    (∀ (mode : ResetMode) (o : ConfettiOptions) (fuel : ℕ) (w : World),
        (resetW mode o fuel w).1.pendingOneShots = w.pendingOneShots)
  ∧ (∀ (o : ConfettiOptions) (w : World),
        (launchConfettiWithDelayW o w).pendingOneShots
            = w.pendingOneShots ++ [(jsOr o.delay 0, o)]
      ∧ (launchConfettiWithDelayW o w).timerId = w.timerId
      ∧ (launchConfettiWithDelayW o w).activeIntervals = w.activeIntervals
      ∧ (launchConfettiWithDelayW o w).animationFrameId = w.animationFrameId) := by
  constructor
  · intro mode o fuel w
    cases mode with
    | instant => simp [resetW, stopTracked_pendingOneShots]
    | smooth =>
        simp only [resetW]
        split
        · rw [stopTracked_pendingOneShots]
        · rfl
    | other s => rfl
  · intro o w
    exact ⟨rfl, rfl, rfl, rfl⟩

/-- Claim C10: the single-burst effect methods `cannon`, `randomDirection`,
`realistic`, `stars`, `custom` (and `fall`) leave the orchestrator's
stored state — defaults, surface binding, tracked interval handle,
tracked frame handle — exactly as it was. -/
theorem C10_single_burst_pure (w : World) (o : ConfettiOptions) (r1 r2 r3 : ℚ)
    (rox rdr : ℕ → ℚ) :
    coreSame (cannonW o w) w
  ∧ coreSame (randomDirectionW r1 r2 r3 o w) w
  ∧ coreSame (realisticW o w) w
  ∧ coreSame (starsW o w) w
  ∧ coreSame (customW o w) w
  ∧ coreSame (fallW o rox rdr w) w := by
  refine ⟨⟨rfl, rfl, rfl, rfl⟩, ⟨rfl, rfl, rfl, rfl⟩, ?_, ⟨rfl, rfl, rfl, rfl⟩,
    ⟨rfl, rfl, rfl, rfl⟩, ?_⟩
  · exact ⟨foldl_launch_defaults _ w, foldl_launch_hasInstance _ w,
      foldl_launch_timerId _ w, foldl_launch_animationFrameId _ w⟩
  · exact ⟨foldl_launch_defaults _ w, foldl_launch_hasInstance _ w,
      foldl_launch_timerId _ w, foldl_launch_animationFrameId _ w⟩

theorem infRunAux_absorb (interval duration : ℤ) (h : ℕ) :
    ∀ (n k : ℕ) (w : World) (f : ℕ), h ∉ w.activeIntervals →
      infRunAux interval duration h n k (w, f) = (w, f) := by
  intro n
  induction n with
  | zero => intro k w f hw; rfl
  | succ m ih =>
      intro k w f hw
      rw [infRunAux, infTickW]
      simp only [hw, if_false]
      exact ih (k + 1) w f hw

theorem infRunAux_add (interval duration : ℤ) (h b : ℕ) :
    ∀ (a k : ℕ) (acc : World × ℕ),
      infRunAux interval duration h (a + b) k acc
        = infRunAux interval duration h b (k + a) (infRunAux interval duration h a k acc) := by
  intro a
  induction a with
  | zero => intro k acc; rw [Nat.zero_add]; rfl
  | succ m ih =>
      intro k acc
      have h1 : m + 1 + b = (m + b) + 1 := by omega
      rw [h1, infRunAux, ih, infRunAux]
      have h2 : k + 1 + m = k + (m + 1) := by omega
      rw [h2]

/-- Claim C5: after `infinite('cannon', 1000, 5000)` the chosen method is
invoked on each of the first five 1000ms ticks (elapsed time up to
5000ms), the sixth tick self-clears the interval instead (leaving the
tracked handle empty and 5 total invocations, no matter how much longer
the clock runs); and a `reset('instant')` issued before expiry clears the
tracked interval at once, after which no tick invokes anything. -/
theorem C5_infinite_schedule :
    (∀ m : Fin 6, (infRunW 1000 5000 1 m.val wInf).2 = m.val)
  ∧ (∀ n : ℕ, infRunW 1000 5000 1 (n + 6) wInf = (stoppedW, 5))
  ∧ (resetW ResetMode.instant {} 0 wInf).1.timerId = none
  ∧ (resetW ResetMode.instant {} 0 wInf).1.activeIntervals = []
  ∧ (∀ n : ℕ,
      (infRunW 1000 5000 1 n ((resetW ResetMode.instant {} 0 wInf).1)).2 = 0) := by
  refine ⟨by decide, ?_, rfl, rfl, ?_⟩
  · intro n
    have h6 : n + 6 = 6 + n := by omega
    rw [infRunW, h6, infRunAux_add]
    have hbase : infRunAux 1000 5000 1 6 1 (wInf, 0) = (stoppedW, 5) := rfl
    rw [hbase]
    exact infRunAux_absorb 1000 5000 1 n (1 + 6) stoppedW 5 (by decide)
  · intro n
    rw [infRunW,
      infRunAux_absorb 1000 5000 1 n 1 ((resetW ResetMode.instant {} 0 wInf).1) 0
        (by decide)]

/-- Claim C6 (the code here is the bug): `reset('bogus')` on an
orchestrator with a live `infinite` interval logs the warning "Defaulting
to instant reset" and fires the global clear, and it does cancel the frame
handle — but unlike the real `'instant'` branch it leaves the tracked
interval running (`timerId` still set, handle 1 still active). -/
theorem C6_invalid_mode_keeps_interval :
    (resetW (ResetMode.other "bogus") {} 0 wInf).1.timerId = some 1
  ∧ (resetW (ResetMode.other "bogus") {} 0 wInf).1.activeIntervals = [1]
  ∧ (resetW (ResetMode.other "bogus") {} 0 wInf).1.animationFrameId = none
  ∧ (resetW (ResetMode.other "bogus") {} 0 wInf).2
      = [Event.warn "Unknown reset type: bogus. Defaulting to instant reset.",
         Event.globalClear]
  ∧ (resetW ResetMode.instant {} 0 wInf).1.timerId = none
  ∧ (resetW ResetMode.instant {} 0 wInf).1.activeIntervals = [] :=
  ⟨rfl, rfl, rfl, rfl, rfl, rfl⟩

theorem smoothLoop_eq (o : ConfettiOptions) (n : ℕ) :
    ∀ (fuelcnt cur : ℕ), cur < n → n ≤ cur + fuelcnt →
      smoothLoop o (n : ℚ) fuelcnt cur
        = ((List.range (n - cur)).map
              (fun i => Event.fadeTick (smoothTickCfg o (n : ℚ) (cur + i + 1)))
            ++ [Event.globalClear], true) := by
  intro fuelcnt
  induction fuelcnt with
  | zero =>
      intro cur h1 h2
      exfalso
      omega
  | succ m ih =>
      intro cur h1 h2
      rw [smoothLoop]
      by_cases hc : n ≤ cur + 1
      · have hn : n = cur + 1 := by omega
        have hcast : (n : ℚ) ≤ ((cur + 1 : ℕ) : ℚ) := by exact_mod_cast hc
        simp only [hcast, if_true, if_pos]
        subst hn
        simp [List.range_succ]
      · have hcast : ¬ ((n : ℚ) ≤ ((cur + 1 : ℕ) : ℚ)) := by
          push_cast
          exact_mod_cast hc
        rw [if_neg hcast, ih (cur + 1) (by omega) (by omega)]
        have hrange : n - cur = (n - (cur + 1)) + 1 := by omega
        rw [hrange, List.range_succ_eq_map]
        simp only [List.map_cons, List.map_map, List.cons_append, Prod.mk.injEq, and_true]
        have hmap :
            List.map ((fun i => Event.fadeTick (smoothTickCfg o (n : ℚ) (cur + i + 1))) ∘ Nat.succ)
                (List.range (n - (cur + 1)))
              = List.map (fun i => Event.fadeTick (smoothTickCfg o (n : ℚ) (cur + 1 + i + 1)))
                (List.range (n - (cur + 1))) := by
          refine List.map_congr_left ?_
          intro a ha
          simp only [Function.comp_apply, Nat.succ_eq_add_one]
          have heq : cur + (a + 1) + 1 = cur + 1 + a + 1 := by omega
          rw [heq]
        rw [hmap]

theorem resetW_smooth_eq (o : ConfettiOptions) (fuelcnt : ℕ) (w : World) :
    resetW ResetMode.smooth o fuelcnt w
      = (if (smoothLoop o (jsOr o.duration 2000 / 50) fuelcnt 0).2 then
           stopTrackedInterval
             { w with
                animationFrameId := none
                activeIntervals :=
                  (w.activeIntervals ++ [w.nextHandle]).filter (fun x => x != w.nextHandle)
                nextHandle := w.nextHandle + 1 }
         else
           { w with
              animationFrameId := none
              activeIntervals := w.activeIntervals ++ [w.nextHandle]
              nextHandle := w.nextHandle + 1 },
         (smoothLoop o (jsOr o.duration 2000 / 50) fuelcnt 0).1) := rfl

/-- Claim C4: `reset('smooth', {duration: 2000})` fires exactly 40 fade
ticks (steps = 2000/50), the burst on tick `k` carrying scalar exactly
`1 - k/40`, followed by the global clear; afterwards the tracked interval
handle is empty, the frame handle is empty, the fade interval itself is no
longer active, and any previously tracked loop interval has been
cancelled. -/
theorem C4_smooth_fade (w : World) :
    (resetW ResetMode.smooth rOpts2000 100 w).2
      = (List.range 40).map
          (fun i => Event.fadeTick (smoothTickCfg rOpts2000 ((40 : ℕ) : ℚ) (i + 1)))
        ++ [Event.globalClear]
  ∧ (resetW ResetMode.smooth rOpts2000 100 w).2.filterMap tickScalar
      = (List.range 40).map (fun i : ℕ => 1 - ((i : ℚ) + 1) / 40)
  ∧ (resetW ResetMode.smooth rOpts2000 100 w).1.timerId = none
  ∧ (resetW ResetMode.smooth rOpts2000 100 w).1.animationFrameId = none
  ∧ w.nextHandle ∉ (resetW ResetMode.smooth rOpts2000 100 w).1.activeIntervals
  ∧ (∀ t : ℕ, w.timerId = some t →
        t ∉ (resetW ResetMode.smooth rOpts2000 100 w).1.activeIntervals) := by
  have hsteps : jsOr rOpts2000.duration 2000 / 50 = ((40 : ℕ) : ℚ) := by
    norm_num [jsOr, rOpts2000]
  have hloop := smoothLoop_eq rOpts2000 40 100 0 (by omega) (by omega)
  simp only [Nat.sub_zero, Nat.zero_add] at hloop
  have hreset := resetW_smooth_eq rOpts2000 100 w
  rw [hsteps, hloop] at hreset
  simp only [if_true] at hreset
  have hevs : (resetW ResetMode.smooth rOpts2000 100 w).2
      = (List.range 40).map
          (fun i => Event.fadeTick (smoothTickCfg rOpts2000 ((40 : ℕ) : ℚ) (i + 1)))
        ++ [Event.globalClear] := by
    rw [hreset]
  refine ⟨hevs, ?_, ?_, ?_, ?_, ?_⟩
  · rw [hevs, List.filterMap_append, List.filterMap_map]
    have hfun :
        (tickScalar ∘ fun i => Event.fadeTick (smoothTickCfg rOpts2000 ((40 : ℕ) : ℚ) (i + 1)))
          = (some ∘ fun i : ℕ => 1 - ((i : ℚ) + 1) / 40) := by
      funext i
      simp only [Function.comp_apply, tickScalar, smoothTickCfg]
      push_cast
      ring_nf
    rw [hfun, List.filterMap_eq_map]
    simp [tickScalar]
  · rw [hreset]
    exact stopTracked_timerId _
  · rw [hreset]
    rw [stopTracked_animationFrameId]
  · rw [hreset]
    intro hmem
    have hx := mem_stopTracked hmem
    simp only [List.mem_filter] at hx
    exact absurd hx.2 (by simp)
  · intro t ht
    rw [hreset]
    exact timerId_not_mem_stopTracked ht

/-- Witness for C4_smooth_fade: on a world whose tracked interval is
handle 1 (`infinite` running), the smooth reset cancels it. -/
theorem C4_smooth_fade_witness :
    1 ∉ (resetW ResetMode.smooth rOpts2000 100 wInf).1.activeIntervals :=
  (C4_smooth_fade wInf).2.2.2.2.2 1 rfl
